import Mathlib

/-!
Verification of the batch file aggregator and the user-record validator of
this repository, as a shallow embedding in Lean 4.

Source files embedded here:
* `task-2-error-handling-refactor/AI-generated_refactor.py`
  (`validate_file_path`, `load_json_file`, `extract_user_data`,
  `process_user_files`);
* `task-2-error-handling-refactor/original.py` and
  `task-2-error-handling-refactor/human-written_refactor.py`
  (reference implementations of `process_user_files`);
* `task-1-rest-api-endpoint/AI-generated_api.py`
  (`validate_email`, `validate_name`, `validate_user_data`, `create_user`).

Modelling decisions:
* JSON numbers are embedded as exact rationals (`ℚ`); the code's float
  arithmetic on the inputs exercised by the spec involves only small
  decimal values, where float and rational arithmetic agree.  Float
  specials (`inf`, `nan`, overflow of huge integers) are outside the model.
* File I/O is an oracle `FS : String → FileState` describing, per path, the
  observable outcome of `open` + `json.load` on the current file-system
  snapshot (missing file, not a regular file, permission denied, bad
  encoding, malformed JSON with parser detail, or a parsed JSON value).
* Python exceptions become `Except` values; logging is ignored (it does not
  affect the data flow).
* Python dicts parsed from JSON are association lists with distinct keys;
  lookup is first-match lookup, which coincides with dict lookup.
-/

set_option linter.unusedVariables false

/-- Embedded JSON values (`json.load` results). Numbers are exact rationals. -/
inductive JValue where
  | null : JValue
  | bool (b : Bool) : JValue
  | num (q : ℚ) : JValue
  | str (s : String) : JValue
  | arr (xs : List JValue) : JValue
  | obj (kvs : List (String × JValue)) : JValue

/-- Python whitespace: the characters stripped by `str.strip()` and matched
by the regex class `\s` on `str` patterns (ASCII whitespace plus the Unicode
whitespace code points). -/
def isPySpace (c : Char) : Bool :=
  c ∈ ([' ', '\t', '\n', '\r', '\x0b', '\x0c',
        '\x1c', '\x1d', '\x1e', '\x1f', '\x85', '\xa0',
        ' ', ' ', ' ', ' ', ' ', ' ',
        ' ', ' ', ' ', ' ', ' ', ' ',
        ' ', ' ', ' ', ' ', '　'] : List Char)

/-- Python `str.strip()`: remove leading and trailing whitespace. -/
def pyStrip (cs : List Char) : List Char :=
  ((cs.dropWhile isPySpace).reverse.dropWhile isPySpace).reverse

/-- Numeric value of a decimal digit character. -/
def digitVal (c : Char) : ℕ := c.toNat - '0'.toNat

/-- Value of a list of decimal digit characters. -/
def digitsToNat (ds : List Char) : ℕ :=
  ds.foldl (fun a c => a * 10 + digitVal c) 0

/-- Python `float(s)` on a string, as an exact rational: optional
whitespace, optional sign, decimal mantissa with optional fraction, optional
exponent.  (`inf`/`nan` and digit-group underscores are outside the model;
no input exercised by the spec uses them.)  `none` models a raised
`ValueError`. -/
def pyFloatOfStr (cs : List Char) : Option ℚ :=
  let t := pyStrip cs
  let signed : Bool × List Char :=
    match t with
    | '+' :: r => (false, r)
    | '-' :: r => (true, r)
    | r => (false, r)
  let neg := signed.1
  let t1 := signed.2
  let ipart := t1.takeWhile Char.isDigit
  let r1 := t1.dropWhile Char.isDigit
  let frac : List Char × List Char :=
    match r1 with
    | '.' :: r => (r.takeWhile Char.isDigit, r.dropWhile Char.isDigit)
    | r => ([], r)
  let fpart := frac.1
  let r2 := frac.2
  if ipart = [] ∧ fpart = [] then none
  else
    let mant : ℚ := (digitsToNat ipart : ℚ) + (digitsToNat fpart : ℚ) / ((10 : ℚ) ^ fpart.length)
    let base : ℚ := if neg then -mant else mant
    match r2 with
    | [] => some base
    | e :: r3 =>
      if e = 'e' ∨ e = 'E' then
        let esigned : Bool × List Char :=
          match r3 with
          | '+' :: r => (false, r)
          | '-' :: r => (true, r)
          | r => (false, r)
        let eds := esigned.2.takeWhile Char.isDigit
        let r5 := esigned.2.dropWhile Char.isDigit
        if eds = [] ∨ r5 ≠ [] then none
        else some (if esigned.1 then base / (10 : ℚ) ^ digitsToNat eds
                   else base * (10 : ℚ) ^ digitsToNat eds)
      else none

/-- Python `float(value)` on a JSON value: numbers are returned, booleans
coerce to 0/1, strings are parsed, everything else raises (`none` models a
raised `TypeError`/`ValueError`). -/
def pyFloat : JValue → Option ℚ
  | .num q => some q
  | .bool b => some (if b then 1 else 0)
  | .str s => pyFloatOfStr s.data
  | _ => none

/-- Result record for one successfully processed file. -/
structure FileSummary where
  file : String
  user_count : ℕ
  total_value : ℚ
deriving DecidableEq, Repr

/-- Error record for one failed file. -/
structure ProcessingError where
  file : String
  error : String
deriving DecidableEq, Repr

/-- The payload of the custom `FileProcessingError` exception (the wrapped
original exception object is not modelled; no code path observes it). -/
structure FileProcessingError where
  file_path : String
  message : String
deriving DecidableEq, Repr

/-- Per-path observable outcome of `open` + `json.load` on the current
file-system snapshot. -/
inductive FileState where
  | absent : FileState
  | notFile (loadErrMsg : String) : FileState
  | denied : FileState
  | badEncoding : FileState
  | badJson (detail : String) : FileState
  | parsed (v : JValue) : FileState

/-- A file-system snapshot: what each path holds. -/
def FS : Type := String → FileState

/-- `validate_file_path` (AI refactor, lines 40–55): `Path(p).exists() and
Path(p).is_file()`; false when the path is missing or not a regular file. -/
def validate_file_path (fs : FS) (p : String) : Bool :=
  match fs p with
  | .absent => false
  | .notFile _ => false
  | _ => true

/-- `load_json_file` (AI refactor, lines 58–122): open and parse the path as
JSON; raise `FileProcessingError` with a distinct message per failure mode;
reject non-object top-level values; return the parsed object.  The Python
return type is `Optional[Dict]`, hence the `Option` in the success payload;
every `return` statement returns the parsed dict. -/
def load_json_file (fs : FS) (p : String) :
    Except FileProcessingError (Option (List (String × JValue))) :=
  match fs p with
  | .absent => .error ⟨p, "File not found"⟩
  | .notFile msg => .error ⟨p, "Unexpected error: " ++ msg⟩
  | .denied => .error ⟨p, "Permission denied"⟩
  | .badEncoding => .error ⟨p, "File encoding error"⟩
  | .badJson detail => .error ⟨p, "Invalid JSON format: " ++ detail⟩
  | .parsed v =>
    match v with
    | .obj kvs => .ok (some kvs)
    | _ => .error ⟨p, "File does not contain a JSON object"⟩

/-- One iteration of the user loop in `extract_user_data` (lines 155–171):
non-dict entries are skipped; `value` defaults to `0`; non-float-coercible
values are skipped; coercible values are added to the running total. -/
def userValueStep (acc : ℚ) (u : JValue) : ℚ :=
  match u with
  | .obj kvs =>
    match pyFloat ((List.lookup "value" kvs).getD (.num 0)) with
    | some q => acc + q
    | none => acc
  | _ => acc

/-- `extract_user_data` (AI refactor, lines 125–189): missing `users` key
means an empty list; a non-list `users` raises
`FileProcessingError "'users' field must be a list"`; otherwise the summary
counts the raw list length and totals the coercible values. -/
def extract_user_data (kvs : List (String × JValue)) (p : String) :
    Except FileProcessingError FileSummary :=
  match List.lookup "users" kvs with
  | none => .ok ⟨p, ([] : List JValue).length, ([] : List JValue).foldl userValueStep 0⟩
  | some users =>
    match users with
    | .arr xs => .ok ⟨p, xs.length, xs.foldl userValueStep 0⟩
    | _ => .error ⟨p, "'users' field must be a list"⟩

/-- An element of the Python list passed to `process_user_files`: a string
path, or a non-string object whose `str()` rendering is recorded. -/
inductive PathItem where
  | str (p : String) : PathItem
  | other (reprStr : String) : PathItem
deriving DecidableEq, Repr

/-- The Python argument of `process_user_files`: a list, or any non-list
value. -/
inductive FilePathsArg where
  | pyList (items : List PathItem) : FilePathsArg
  | notList : FilePathsArg

/-- The body of the `for path in file_paths` loop of `process_user_files`
(AI refactor, lines 222–275): each path yields exactly one `FileSummary`
(left) or one `ProcessingError` (right). -/
def processItem (fs : FS) : PathItem → FileSummary ⊕ ProcessingError
  | .other r => .inr ⟨r, "Invalid path type"⟩
  | .str p =>
    if validate_file_path fs p = false then
      .inr ⟨p, "File does not exist or is not accessible"⟩
    else
      match load_json_file fs p with
      | .error e => .inr ⟨e.file_path, e.message⟩
      | .ok none => .inr ⟨p, "Failed to load file"⟩
      | .ok (some kvs) =>
        match extract_user_data kvs p with
        | .error e => .inr ⟨e.file_path, e.message⟩
        | .ok s => .inl s

/-- One loop iteration of `process_user_files`: append the outcome of the
current path to the `results` or `errors` accumulator. -/
def processStep (fs : FS) (acc : List FileSummary × List ProcessingError)
    (it : PathItem) : List FileSummary × List ProcessingError :=
  match processItem fs it with
  | .inl s => (acc.1 ++ [s], acc.2)
  | .inr e => (acc.1, acc.2 ++ [e])

/-- The whole loop of `process_user_files`: fold over the paths, appending
each outcome to the `results` or `errors` accumulator. -/
def processLoop (fs : FS) (items : List PathItem) :
    List FileSummary × List ProcessingError :=
  items.foldl (processStep fs) ([], [])

/-- `process_user_files` (AI refactor, lines 192–288): raise `ValueError`
on a non-list argument, return early on an empty list, otherwise run the
loop.  The returned pair is (returned `results`, logged `errors`). -/
def process_user_files (fs : FS) (arg : FilePathsArg) :
    Except String (List FileSummary × List ProcessingError) :=
  match arg with
  | .notList => .error "file_paths must be a list"
  | .pyList items =>
    if items.isEmpty then .ok ([], [])
    else .ok (processLoop fs items)

/-! ### Validator (`task-1-rest-api-endpoint/AI-generated_api.py`) -/

/-- ASCII letter, the regex class `[a-zA-Z]`. -/
def isAsciiLetter (c : Char) : Bool :=
  ('a' ≤ c && c ≤ 'z') || ('A' ≤ c && c ≤ 'Z')

/-- The regex class `[a-zA-Z0-9._%+-]` (local part of the email pattern). -/
def isEmailLocalChar (c : Char) : Bool :=
  isAsciiLetter c || c.isDigit || c = '.' || c = '_' || c = '%' || c = '+' || c = '-'

/-- The regex class `[a-zA-Z0-9.-]` (domain part of the email pattern). -/
def isEmailDomainChar (c : Char) : Bool :=
  isAsciiLetter c || c.isDigit || c = '.' || c = '-'

/-- Split a list at the first occurrence of `c`: returns the part before
and the part after that occurrence, or `none` when `c` does not occur. -/
def splitAtFirst (c : Char) : List Char → Option (List Char × List Char)
  | [] => none
  | x :: xs =>
    if x = c then some ([], xs)
    else (splitAtFirst c xs).map (fun ab => (x :: ab.1, ab.2))

/-- Split a list at the last occurrence of `c`. -/
def splitAtLast (c : Char) (cs : List Char) : Option (List Char × List Char) :=
  (splitAtFirst c cs.reverse).map (fun ab => (ab.2.reverse, ab.1.reverse))

/-- Whole-string match of `[a-zA-Z0-9._%+-]+@[a-zA-Z0-9.-]+\.[a-zA-Z]{2,}`
(with `$` meaning end of input).  Because `@` occurs in neither character
class, the local part ends at the first `@`; because the TLD is all
letters, the dot before it is the last dot of the remainder.  So the match
is decided by splitting at the first `@` and the last `.`. -/
def reMatchEmailStrict (cs : List Char) : Bool :=
  match splitAtFirst '@' cs with
  | none => false
  | some (l, rest) =>
    decide (l ≠ []) && l.all isEmailLocalChar &&
    match splitAtLast '.' rest with
    | none => false
    | some (m, t) =>
      decide (m ≠ []) && m.all isEmailDomainChar &&
      decide (2 ≤ t.length) && t.all isAsciiLetter

/-- Python `re.match` with the email pattern: in Python `$` matches at end
of input or just before one trailing newline, so the engine also accepts a
match followed by a single final `'\n'`. -/
def pyReMatchEmail (cs : List Char) : Bool :=
  reMatchEmailStrict cs ||
    (match cs.getLast? with
     | some c => c = '\n' && reMatchEmailStrict cs.dropLast
     | none => false)

/-- A Python value handed to a validator: a string, or any non-string. -/
inductive PyInput where
  | str (cs : List Char) : PyInput
  | nonStr : PyInput

/-- `validate_email` (API file, lines 21–36): `not email or not
isinstance(email, str)` rejects non-strings and the empty string; otherwise
the email pattern is matched with `re.match`. -/
def validate_email : PyInput → Bool
  | .nonStr => false
  | .str cs => if cs = [] then false else pyReMatchEmail cs

/-- The regex class `[a-zA-Z\s'-]` used by `validate_name`.  (A trailing
newline accepted by Python `$` is subsumed: `'\n'` is itself in the class.) -/
def isNameChar (c : Char) : Bool :=
  isAsciiLetter c || isPySpace c || c = '-' || c = '\''

/-- `validate_name` (API file, lines 39–64): reject non-strings and the
empty string; strip; then check trimmed length bounds and the character
class, returning the first violated rule's message. -/
def validate_name : PyInput → Bool × String
  | .nonStr => (false, "Name must be a non-empty string")
  | .str cs =>
    if cs = [] then (false, "Name must be a non-empty string")
    else
      let t := pyStrip cs
      if t.length < 2 then (false, "Name must be at least 2 characters long")
      else if t.length > 100 then (false, "Name must not exceed 100 characters")
      else if t.all isNameChar then (true, "")
      else (false, "Name contains invalid characters")

/-- View a JSON value as a validator input (`isinstance(x, str)` test). -/
def jvToInput : JValue → PyInput
  | .str s => .str s.data
  | _ => .nonStr

/-- Python `str.lower()` restricted to ASCII (every string reaching the
normalisation step has passed the ASCII-only email regex). -/
def pyToLower (c : Char) : Char := c.toLower

/-- `validate_user_data` (API file, lines 67–105): require a JSON object
with `email` and `name` keys, delegate to the two validators, and on
success return the normalised pair (email stripped and lower-cased, name
stripped). -/
def validate_user_data (data : JValue) : Bool × String × Option (List Char × List Char) :=
  match data with
  | .obj kvs =>
    match List.lookup "email" kvs, List.lookup "name" kvs with
    | none, _ => (false, "Missing required field: email", none)
    | some _, none => (false, "Missing required field: name", none)
    | some ev, some nv =>
      if validate_email (jvToInput ev) = false then
        (false, "Invalid email format", none)
      else
        match validate_name (jvToInput nv) with
        | (false, msg) => (false, msg, none)
        | (true, _) =>
          match ev, nv with
          | .str es, .str ns =>
            (true, "", some ((pyStrip es.data).map pyToLower, pyStrip ns.data))
          | _, _ => (false, "", none)
  | _ => (false, "Request body must be a JSON object", none)

/-- Outcome of the request prologue inside `create_user`'s `try` block:
either `request.get_json()` produced a body (`none` models a missing/
unparseable body, for which `get_json` returns `None`), or an unexpected
exception with internal message `m` was raised somewhere in the block. -/
inductive ReqOutcome where
  | body (v : Option JValue) : ReqOutcome
  | fault (m : String) : ReqOutcome

/-- The fixed 500 response body of the `except Exception` handler in
`create_user` (API file, lines 157–163). -/
def internalErrorBody : JValue :=
  .obj [("error", .str "Internal server error"),
        ("message", .str "An unexpected error occurred processing your request")]

/-- `create_user` (API file, lines 108–163): 400 on a missing body, 400
with the specific reason on validation failure, 201 with the synthesized
record on success, and the fixed generic 500 body on any unexpected
exception (whose message `m` goes to the log only).  The dead
`(true, _, none)` validator case corresponds to a `KeyError` on
`validated_data['email']`, which the outer handler would also turn into
the generic 500. -/
def create_user (o : ReqOutcome) : ℕ × JValue :=
  match o with
  | .fault m => (500, internalErrorBody)
  | .body none =>
    (400, .obj [("error", .str "Request body required"),
                ("message", .str "Expected JSON request body with user data")])
  | .body (some d) =>
    match validate_user_data d with
    | (false, msg, _) =>
      (400, .obj [("error", .str "Validation failed"), ("message", .str msg)])
    | (true, _, some en) =>
      (201, .obj [("id", .num 1),
                  ("email", .str (String.mk en.1)),
                  ("name", .str (String.mk en.2)),
                  ("created_at", .str "2025-01-04T00:00:00Z")])
    | (true, _, none) => (500, internalErrorBody)

/-! ### Reference implementations (`original.py`, `human-written_refactor.py`) -/

/-- A Python exception class raised by the reference implementations
(their callers never read the message, only the class matters). -/
inductive PyExc where
  | typeError : PyExc
  | keyError : PyExc
  | attributeError : PyExc
deriving DecidableEq, Repr

/-- Python `len(v)`: defined for lists, strings and dicts, `TypeError`
otherwise. -/
def pyLen : JValue → Except PyExc ℕ
  | .arr xs => .ok xs.length
  | .str s => .ok s.length
  | .obj kvs => .ok kvs.length
  | _ => .error .typeError

/-- Python iteration `for u in v`: lists yield elements, strings yield
one-character strings, dicts yield their keys, everything else raises
`TypeError`. -/
def pyIter : JValue → Except PyExc (List JValue)
  | .arr xs => .ok xs
  | .str s => .ok (s.data.map (fun c => .str (String.mk [c])))
  | .obj kvs => .ok (kvs.map (fun kv => .str kv.1))
  | _ => .error .typeError

/-- `u.get('value', 0)` in the reference sum: only dicts have `.get`,
anything else raises `AttributeError`. -/
def origGetValue : JValue → Except PyExc JValue
  | .obj kvs => .ok ((List.lookup "value" kvs).getD (.num 0))
  | _ => .error .attributeError

/-- Python `acc + v` inside `sum(...)` (acc numeric): numbers and booleans
add, anything else raises `TypeError`. -/
def pyAdd (acc : ℚ) : JValue → Except PyExc ℚ
  | .num q => .ok (acc + q)
  | .bool b => .ok (acc + if b then 1 else 0)
  | _ => .error .typeError

/-- Python `sum(u.get('value', 0) for u in items)` starting from `acc`:
left-to-right accumulation, propagating the first raised exception. -/
def origSum (acc : ℚ) : List JValue → Except PyExc ℚ
  | [] => .ok acc
  | u :: us => do
    let v ← origGetValue u
    let acc2 ← pyAdd acc v
    origSum acc2 us

/-- The per-file body of `original.py`'s `process_user_files` (lines 10–14)
applied to parsed JSON `data`: `user_count = len(data.get('users', []))`,
then `total_value = sum(u.get('value', 0) for u in data['users'])`, in
Python evaluation order (the `len` call first, then the `KeyError`-prone
subscript, then the sum). -/
def original_extract (data : JValue) (p : String) : Except PyExc FileSummary :=
  match data with
  | .obj kvs => do
    let count ← pyLen ((List.lookup "users" kvs).getD (.arr []))
    let usersVal ← match List.lookup "users" kvs with
      | some v => Except.ok v
      | none => Except.error .keyError
    let items ← pyIter usersVal
    let total ← origSum 0 items
    return ⟨p, count, total⟩
  | _ => .error .attributeError

/-- The per-file behaviour of `human-written_refactor.py` (lines 10–24):
the same computation as `original.py`, but inside `try`, so a file whose
processing raises is dropped (logged, no summary).  Loading failures
(anything but a parsed value) are likewise dropped. -/
def human_process_file (st : FileState) (p : String) : Option FileSummary :=
  match st with
  | .parsed v =>
    match original_extract v p with
    | .ok s => some s
    | .error _ => none
  | _ => none

/-! ### Spec-side email pattern and concrete fixtures -/

/-- Modelled from the spec's words: the language of the pattern
`^[A-Za-z0-9._%+-]+@[A-Za-z0-9.-]+\.[A-Za-z]{2,}$` with `$` read as end of
input, transcribed clause by clause — a nonempty local part, `@`, a
nonempty domain part, a dot, and a TLD of at least two letters. -/
def emailSpecMatch (cs : List Char) : Prop :=
  ∃ l m t : List Char,
    cs = l ++ '@' :: (m ++ '.' :: t) ∧
    l ≠ [] ∧ (∀ c ∈ l, isEmailLocalChar c = true) ∧
    m ≠ [] ∧ (∀ c ∈ m, isEmailDomainChar c = true) ∧
    2 ≤ t.length ∧ (∀ c ∈ t, isAsciiLetter c = true)

/-- The `users` list of the spec's worked example
`{"users":[{"value":5},{"value":"x"},{"novalue":1}]}`. -/
def exampleUsers : List JValue :=
  [.obj [("value", .num 5)], .obj [("value", .str "x")], .obj [("novalue", .num 1)]]

/-- The parsed top-level object of the spec's worked example. -/
def exampleKvs : List (String × JValue) := [("users", .arr exampleUsers)]

/-- File-system snapshot for the spec's three-file scenario: one missing
path, one file with invalid JSON, one well-formed file. -/
def fsDemo : FS := fun p =>
  if p = "data.json" then .parsed (.obj exampleKvs)
  else if p = "invalid.json" then .badJson "Expecting value: line 1 column 1 (char 0)"
  else .absent

/-- The input paths of the three-file scenario. -/
def demoItems : List PathItem :=
  [.str "missing.json", .str "invalid.json", .str "data.json"]

/-- The spec's description of one user entry's contribution: the
float-coercion of the `value` field (default `0`) of an object entry;
`none` for non-object entries and non-coercible values. -/
def entryFloat? (u : JValue) : Option ℚ :=
  match u with
  | .obj kvs => pyFloat ((List.lookup "value" kvs).getD (.num 0))
  | _ => none

/-- A user entry on which all three implementations behave alike: an
object whose `value` field is absent or a JSON number. -/
def numericEntry (u : JValue) : Bool :=
  match u with
  | .obj kvs =>
    match List.lookup "value" kvs with
    | none => true
    | some (.num _) => true
    | some _ => false
  | _ => false

/-- All-numeric users list used to witness the agreement of the three
implementations. -/
def numericUsers : List JValue :=
  [.obj [("value", .num 2)], .obj [("novalue", .num 9)]]

/-- Snapshot with a file whose object has no `users` key and a file whose
`users` field is not a list. -/
def fsEmptyObj : FS := fun q =>
  if q = "empty.json" then .parsed (.obj [])
  else if q = "badusers.json" then .parsed (.obj [("users", .num 1)])
  else .absent

/-! ### Helper lemmas: the aggregator loop -/

/-- Folding the loop body from any accumulator prepends that accumulator to
the outcome of the loop started from empty accumulators. -/
theorem processLoop_go (fs : FS) (items : List PathItem) :
    ∀ acc : List FileSummary × List ProcessingError,
      items.foldl (processStep fs) acc
        = (acc.1 ++ (processLoop fs items).1, acc.2 ++ (processLoop fs items).2) := by
  induction items with
  | nil => intro acc; simp [processLoop]
  | cons it its ih =>
    intro acc
    have hcons : processLoop fs (it :: its) = its.foldl (processStep fs) (processStep fs ([], []) it) := by
      simp [processLoop]
    rw [List.foldl_cons, ih (processStep fs acc it), hcons, ih (processStep fs ([], []) it)]
    unfold processStep
    cases processItem fs it with
    | inl s => simp
    | inr e => simp

/-- Unrolling the loop one path at a time. -/
theorem processLoop_cons (fs : FS) (it : PathItem) (its : List PathItem) :
    processLoop fs (it :: its)
      = match processItem fs it with
        | .inl s => (s :: (processLoop fs its).1, (processLoop fs its).2)
        | .inr e => ((processLoop fs its).1, e :: (processLoop fs its).2) := by
  have h : processLoop fs (it :: its) = its.foldl (processStep fs) (processStep fs ([], []) it) := by
    simp [processLoop]
  rw [h, processLoop_go fs its (processStep fs ([], []) it)]
  unfold processStep
  cases processItem fs it with
  | inl s => simp
  | inr e => simp

/-- Each input path contributes exactly one record: the summary and error
counts add up to the number of paths. -/
theorem processLoop_length (fs : FS) (items : List PathItem) :
    (processLoop fs items).1.length + (processLoop fs items).2.length = items.length := by
  induction items with
  | nil => simp [processLoop]
  | cons it its ih =>
    rw [processLoop_cons]
    cases processItem fs it with
    | inl s => simpa using by omega
    | inr e => simpa using by omega

/-- Processing a concatenation of path lists concatenates the outcomes:
failures in the first part cannot affect the second part. -/
theorem processLoop_append (fs : FS) (pre post : List PathItem) :
    processLoop fs (pre ++ post)
      = ((processLoop fs pre).1 ++ (processLoop fs post).1,
         (processLoop fs pre).2 ++ (processLoop fs post).2) := by
  induction pre with
  | nil => simp [processLoop]
  | cons it its ih =>
    rw [List.cons_append, processLoop_cons, processLoop_cons, ih]
    cases processItem fs it with
    | inl s => simp
    | inr e => simp

/-- The returned summaries are the per-path successes in input order. -/
theorem processLoop_results (fs : FS) (items : List PathItem) :
    (processLoop fs items).1
      = items.filterMap (fun it => (processItem fs it).getLeft?) := by
  induction items with
  | nil => simp [processLoop]
  | cons it its ih =>
    rw [processLoop_cons, List.filterMap_cons]
    cases processItem fs it with
    | inl s => simpa [Sum.getLeft?] using ih
    | inr e => simpa [Sum.getLeft?] using ih

/-! ### Helper lemmas: strings and the unreachable load branch -/

/-- No parser detail can make the malformed-JSON message collide with the
`Failed to load file` reason. -/
theorem invalidJson_msg_ne (d : String) :
    "Invalid JSON format: " ++ d ≠ "Failed to load file" := by
  intro h
  have h3 : ("Invalid JSON format: " ++ d).data.head? = some 'I' := by
    rw [String.data_append]
    rfl
  rw [h] at h3
  exact absurd h3 (by decide)

/-- No exception text can make the unexpected-error message collide with
the `Failed to load file` reason. -/
theorem unexpected_msg_ne (d : String) :
    "Unexpected error: " ++ d ≠ "Failed to load file" := by
  intro h
  have h3 : ("Unexpected error: " ++ d).data.head? = some 'U' := by
    rw [String.data_append]
    rfl
  rw [h] at h3
  exact absurd h3 (by decide)

/-- On a list argument, `process_user_files` returns the loop outcome (the
empty-list early return included). -/
theorem process_user_files_eq_loop (fs : FS) (items : List PathItem) :
    process_user_files fs (.pyList items) = .ok (processLoop fs items) := by
  unfold process_user_files
  cases items with
  | nil => simp [processLoop]
  | cons it its => simp

/-- C1: for every list of path items given to `process_user_files`, each
input path yields exactly one outcome — one `FileSummary` in the results or
one `ProcessingError` in the errors, never both and never neither (the
counts add up to the number of paths) — and a failure on one path never
prevents the remaining paths from being processed (the outcome of any
decomposition `pre ++ post` is the concatenation of the outcomes of `pre`
and of `post`). -/
theorem batch_one_outcome_per_path (fs : FS) (items : List PathItem) :
    process_user_files fs (.pyList items) = .ok (processLoop fs items)
    ∧ (processLoop fs items).1.length + (processLoop fs items).2.length = items.length
    ∧ ∀ pre post : List PathItem, items = pre ++ post →
        processLoop fs items
          = ((processLoop fs pre).1 ++ (processLoop fs post).1,
             (processLoop fs pre).2 ++ (processLoop fs post).2) := by
  refine ⟨process_user_files_eq_loop fs items, processLoop_length fs items, ?_⟩
  intro pre post h
  subst h
  exact processLoop_append fs pre post

/-- Witness for C1 on the spec's three-file scenario. -/
theorem batch_one_outcome_per_path_witness :
    (processLoop fsDemo demoItems).1.length + (processLoop fsDemo demoItems).2.length = 3
    ∧ processLoop fsDemo demoItems
        = ((processLoop fsDemo [.str "missing.json"]).1
             ++ (processLoop fsDemo [.str "invalid.json", .str "data.json"]).1,
           (processLoop fsDemo [.str "missing.json"]).2
             ++ (processLoop fsDemo [.str "invalid.json", .str "data.json"]).2) :=
  ⟨(batch_one_outcome_per_path fsDemo demoItems).2.1,
   (batch_one_outcome_per_path fsDemo demoItems).2.2
     [.str "missing.json"] [.str "invalid.json", .str "data.json"] rfl⟩

/-- C3: a non-list argument is a hard precondition failure — the
`ValueError "file_paths must be a list"` is raised to the caller — while
the empty list is accepted and returns an empty result with no error. -/
theorem non_sequence_raises_empty_ok (fs : FS) :
    process_user_files fs .notList = .error "file_paths must be a list"
    ∧ process_user_files fs (.pyList []) = .ok ([], []) :=
  ⟨rfl, rfl⟩

/-- C8: `process_user_files` is deterministic over the file-system
snapshot — two runs on the same argument with the same snapshot yield the
same results (in this embedding the code is a pure function of the
snapshot; nothing nondeterministic occurs in the source). -/
theorem batch_deterministic (fs : FS) (arg : FilePathsArg)
    (r₁ r₂ : Except String (List FileSummary × List ProcessingError))
    (h₁ : process_user_files fs arg = r₁) (h₂ : process_user_files fs arg = r₂) :
    r₁ = r₂ :=
  h₁.symm.trans h₂

/-- Witness for C8: both runs on the three-file scenario produce this
explicit value. -/
theorem batch_deterministic_witness :
    (Except.ok ([⟨"data.json", 3, 5⟩],
        [⟨"missing.json", "File does not exist or is not accessible"⟩,
         ⟨"invalid.json", "Invalid JSON format: Expecting value: line 1 column 1 (char 0)"⟩])
      : Except String (List FileSummary × List ProcessingError))
    = .ok ([⟨"data.json", 3, 5⟩],
        [⟨"missing.json", "File does not exist or is not accessible"⟩,
         ⟨"invalid.json", "Invalid JSON format: Expecting value: line 1 column 1 (char 0)"⟩]) :=
  batch_deterministic fsDemo (.pyList demoItems) _ _ (by with_unfolding_all rfl)
    (by with_unfolding_all rfl)

/-- C9: the returned list preserves input order — it is exactly the
subsequence of per-path successes, in the same relative order as the paths
appear in the input list. -/
theorem batch_results_in_input_order (fs : FS) (items : List PathItem) :
    process_user_files fs (.pyList items) = .ok (processLoop fs items)
    ∧ (processLoop fs items).1
        = items.filterMap (fun it => (processItem fs it).getLeft?) :=
  ⟨process_user_files_eq_loop fs items, processLoop_results fs items⟩

/-- C10: `load_json_file` never returns `None` — every successful return
carries a parsed object — so the `data is None` branch of
`process_user_files` is unreachable and the `Failed to load file` reason
can never appear in an error record. -/
theorem load_never_none :
    (∀ (fs : FS) (p : String) (r : Option (List (String × JValue))),
        load_json_file fs p = .ok r → r.isSome = true)
    ∧ ∀ (fs : FS) (it : PathItem) (e : ProcessingError),
        processItem fs it = .inr e → e.error ≠ "Failed to load file" := by
  constructor
  · intro fs p r h
    cases hfs : fs p
    case absent => simp [load_json_file, hfs] at h
    case notFile msg => simp [load_json_file, hfs] at h
    case denied => simp [load_json_file, hfs] at h
    case badEncoding => simp [load_json_file, hfs] at h
    case badJson d => simp [load_json_file, hfs] at h
    case parsed v =>
      cases v <;> simp [load_json_file, hfs] at h
      case obj kvs =>
        subst h
        rfl
  · intro fs it e h
    cases it with
    | other r =>
      unfold processItem at h
      injection h with h2
      subst h2
      show ("Invalid path type" : String) ≠ "Failed to load file"
      decide
    | str p =>
      unfold processItem at h
      cases hfs : fs p
      case absent =>
        simp [validate_file_path, hfs] at h
        subst h
        show ("File does not exist or is not accessible" : String) ≠ "Failed to load file"
        decide
      case notFile msg =>
        simp [validate_file_path, hfs] at h
        subst h
        show ("File does not exist or is not accessible" : String) ≠ "Failed to load file"
        decide
      case denied =>
        simp [validate_file_path, load_json_file, hfs] at h
        subst h
        show ("Permission denied" : String) ≠ "Failed to load file"
        decide
      case badEncoding =>
        simp [validate_file_path, load_json_file, hfs] at h
        subst h
        show ("File encoding error" : String) ≠ "Failed to load file"
        decide
      case badJson detail =>
        simp [validate_file_path, load_json_file, hfs] at h
        subst h
        show "Invalid JSON format: " ++ detail ≠ "Failed to load file"
        exact invalidJson_msg_ne detail
      case parsed v =>
        cases v
        case null =>
          simp [validate_file_path, load_json_file, hfs] at h
          subst h
          show ("File does not contain a JSON object" : String) ≠ "Failed to load file"
          decide
        case bool b =>
          simp [validate_file_path, load_json_file, hfs] at h
          subst h
          show ("File does not contain a JSON object" : String) ≠ "Failed to load file"
          decide
        case num q =>
          simp [validate_file_path, load_json_file, hfs] at h
          subst h
          show ("File does not contain a JSON object" : String) ≠ "Failed to load file"
          decide
        case str s =>
          simp [validate_file_path, load_json_file, hfs] at h
          subst h
          show ("File does not contain a JSON object" : String) ≠ "Failed to load file"
          decide
        case arr xs =>
          simp [validate_file_path, load_json_file, hfs] at h
          subst h
          show ("File does not contain a JSON object" : String) ≠ "Failed to load file"
          decide
        case obj kvs =>
          simp [validate_file_path, load_json_file, hfs] at h
          cases hu : List.lookup "users" kvs
          case none => simp [extract_user_data, hu] at h
          case some users =>
            cases users <;> simp [extract_user_data, hu] at h <;>
              (subst h;
               show ("'users' field must be a list" : String) ≠ "Failed to load file";
               decide)

/-- Witness for C10: the well-formed demo file loads to a present object,
and the missing demo path's error record does not carry the unreachable
reason. -/
theorem load_never_none_witness :
    ((some exampleKvs : Option (List (String × JValue))).isSome = true)
    ∧ ("File does not exist or is not accessible" : String) ≠ "Failed to load file" :=
  ⟨load_never_none.1 fsDemo "data.json" (some exampleKvs) rfl,
   load_never_none.2 fsDemo (.str "missing.json")
     ⟨"missing.json", "File does not exist or is not accessible"⟩ rfl⟩

/-! ### Helper lemmas: extraction and the reference implementations -/

/-- One loop step adds exactly the entry's float-coercion (or nothing). -/
theorem userValueStep_eq (a : ℚ) (u : JValue) :
    userValueStep a u = a + (entryFloat? u).getD 0 := by
  cases u <;> simp [userValueStep, entryFloat?]
  case obj kvs =>
    cases pyFloat ((List.lookup "value" kvs).getD (.num 0)) <;> simp

/-- The extraction loop computes the sum of the float-coercible `value`
fields of the object entries. -/
theorem foldl_userValueStep (xs : List JValue) :
    ∀ a : ℚ, xs.foldl userValueStep a = a + (xs.filterMap entryFloat?).sum := by
  induction xs with
  | nil => intro a; simp
  | cons u us ih =>
    intro a
    rw [List.foldl_cons, ih, userValueStep_eq, List.filterMap_cons]
    cases h : entryFloat? u with
    | none => simp
    | some q => simp [List.sum_cons]; ring

/-- `extract_user_data` on a present `users` list: count is the raw length,
total is the sum of coercible `value` fields of object entries. -/
theorem extract_users_list (kvs : List (String × JValue)) (p : String)
    (xs : List JValue) (h : List.lookup "users" kvs = some (.arr xs)) :
    extract_user_data kvs p = .ok ⟨p, xs.length, (xs.filterMap entryFloat?).sum⟩ := by
  unfold extract_user_data
  rw [h]
  show (Except.ok ⟨p, xs.length, xs.foldl userValueStep 0⟩
      : Except FileProcessingError FileSummary) = _
  rw [foldl_userValueStep xs 0, zero_add]

/-- `extract_user_data` with no `users` key: empty collection, no error. -/
theorem extract_users_missing (kvs : List (String × JValue)) (p : String)
    (h : List.lookup "users" kvs = none) :
    extract_user_data kvs p = .ok ⟨p, 0, 0⟩ := by
  simp [extract_user_data, h]

/-- `extract_user_data` with a non-list `users` value: the whole file
fails with the fixed reason string. -/
theorem extract_users_nonlist (kvs : List (String × JValue)) (p : String)
    (v : JValue) (h : List.lookup "users" kvs = some v) (hne : ∀ xs, v ≠ .arr xs) :
    extract_user_data kvs p = .error ⟨p, "'users' field must be a list"⟩ := by
  unfold extract_user_data
  rw [h]
  cases v
  case arr xs => exact absurd rfl (hne xs)
  all_goals rfl

/-- On a path whose snapshot is a parsed JSON object, `processItem` is
decided by `extract_user_data`. -/
theorem processItem_parsed (fs : FS) (p : String) (kvs : List (String × JValue))
    (hfs : fs p = .parsed (.obj kvs)) :
    processItem fs (.str p)
      = match extract_user_data kvs p with
        | .error e => .inr ⟨e.file_path, e.message⟩
        | .ok s => .inl s := by
  simp [processItem, validate_file_path, load_json_file, hfs]

/-- On an all-numeric users list, the reference sum succeeds and computes
the same total as the refactor's per-entry coercion. -/
theorem origSum_eq (xs : List JValue) (hx : xs.all numericEntry = true) :
    ∀ a : ℚ, origSum a xs = .ok (a + (xs.filterMap entryFloat?).sum) := by
  induction xs with
  | nil => intro a; simp [origSum]
  | cons u us ih =>
    rw [List.all_cons, Bool.and_eq_true] at hx
    obtain ⟨hu, hus⟩ := hx
    intro a
    cases u <;> simp [numericEntry] at hu
    case obj kvsu =>
      cases hv : List.lookup "value" kvsu with
      | none =>
        have hg : origGetValue (JValue.obj kvsu) = .ok (.num 0) := by
          simp [origGetValue, hv]
        have hef : entryFloat? (JValue.obj kvsu) = some 0 := by
          simp [entryFloat?, hv, pyFloat]
        have h1 : origSum a (JValue.obj kvsu :: us) = origSum (a + 0) us := by
          simp only [origSum, hg]
          rfl
        rw [h1, ih hus (a + 0), List.filterMap_cons, hef]
        exact congrArg Except.ok (by simp [List.sum_cons])
      | some v =>
        rw [hv] at hu
        cases v <;> simp at hu
        case num q =>
          have hg : origGetValue (JValue.obj kvsu) = .ok (.num q) := by
            simp [origGetValue, hv]
          have hef : entryFloat? (JValue.obj kvsu) = some q := by
            simp [entryFloat?, hv, pyFloat]
          have h1 : origSum a (JValue.obj kvsu :: us) = origSum (a + q) us := by
            simp only [origSum, hg]
            rfl
          rw [h1, ih hus (a + q), List.filterMap_cons, hef]
          exact congrArg Except.ok (by simp [List.sum_cons]; ring)

/-- C2 (amended): for every file whose top-level object has a `users` list,
the refactor's summary has `user_count` equal to the raw list length and
`total_value` equal to the sum of the float-coercible `value` fields of the
object entries; on the spec's worked example the batch yields exactly one
summary with count 3 and total 5 (and two error records); and the reference
implementations agree with this behaviour on files whose user entries are
objects with absent-or-numeric `value` fields (but not in general). -/
theorem extract_counts_raw_sums_coercible :
    (∀ (kvs : List (String × JValue)) (p : String) (xs : List JValue),
        List.lookup "users" kvs = some (.arr xs) →
        extract_user_data kvs p = .ok ⟨p, xs.length, (xs.filterMap entryFloat?).sum⟩)
    ∧ (∀ (fs : FS) (p : String) (kvs : List (String × JValue)) (xs : List JValue),
        fs p = .parsed (.obj kvs) → List.lookup "users" kvs = some (.arr xs) →
        processItem fs (.str p) = .inl ⟨p, xs.length, (xs.filterMap entryFloat?).sum⟩)
    ∧ process_user_files fsDemo (.pyList demoItems)
        = .ok ([⟨"data.json", 3, 5⟩],
            [⟨"missing.json", "File does not exist or is not accessible"⟩,
             ⟨"invalid.json", "Invalid JSON format: Expecting value: line 1 column 1 (char 0)"⟩])
    ∧ ∀ (kvs : List (String × JValue)) (p : String) (xs : List JValue),
        List.lookup "users" kvs = some (.arr xs) → xs.all numericEntry = true →
        original_extract (.obj kvs) p = .ok ⟨p, xs.length, (xs.filterMap entryFloat?).sum⟩
        ∧ human_process_file (.parsed (.obj kvs)) p
            = some ⟨p, xs.length, (xs.filterMap entryFloat?).sum⟩ := by
  refine ⟨extract_users_list, ?_, by with_unfolding_all rfl, ?_⟩
  · intro fs p kvs xs hfs h
    rw [processItem_parsed fs p kvs hfs, extract_users_list kvs p xs h]
  · intro kvs p xs h hx
    have horig : original_extract (.obj kvs) p
        = .ok ⟨p, xs.length, (xs.filterMap entryFloat?).sum⟩ := by
      show (do
        let count ← pyLen ((List.lookup "users" kvs).getD (JValue.arr []))
        let usersVal ← match List.lookup "users" kvs with
          | some v => Except.ok v
          | none => Except.error PyExc.keyError
        let items ← pyIter usersVal
        let total ← origSum 0 items
        (pure ⟨p, count, total⟩ : Except PyExc FileSummary)) = _
      rw [h]
      show (do
        let total ← origSum (0 : ℚ) xs
        (pure ⟨p, xs.length, total⟩ : Except PyExc FileSummary)) = _
      rw [origSum_eq xs hx 0]
      show (Except.ok ⟨p, xs.length, 0 + (xs.filterMap entryFloat?).sum⟩
          : Except PyExc FileSummary) = _
      rw [zero_add]
    refine ⟨horig, ?_⟩
    show (match original_extract (JValue.obj kvs) p with
          | Except.ok s => some s
          | Except.error _ => none) = _
    rw [horig]

/-- C2 counterexample: on the spec's worked example the refactor yields
count 3 and total 5, but `original.py` raises `TypeError` on the
string-valued entry, and the human refactor drops the file — so the
behaviour does not match both reference implementations. -/
theorem extract_matches_references_counterexample :
    extract_user_data exampleKvs "data.json" = .ok ⟨"data.json", 3, 5⟩
    ∧ original_extract (.obj exampleKvs) "data.json" = .error .typeError
    ∧ human_process_file (.parsed (.obj exampleKvs)) "data.json" = none := by
  refine ⟨?_, ?_, ?_⟩ <;> with_unfolding_all rfl

/-- Witness for C2 on the worked example and the all-numeric users list. -/
theorem extract_counts_raw_sums_coercible_witness :
    extract_user_data exampleKvs "data.json"
      = .ok ⟨"data.json", exampleUsers.length, (exampleUsers.filterMap entryFloat?).sum⟩
    ∧ original_extract (.obj [("users", JValue.arr numericUsers)]) "n.json"
        = .ok ⟨"n.json", numericUsers.length, (numericUsers.filterMap entryFloat?).sum⟩ :=
  ⟨extract_counts_raw_sums_coercible.1 exampleKvs "data.json" exampleUsers rfl,
   (extract_counts_raw_sums_coercible.2.2.2 [("users", JValue.arr numericUsers)]
      "n.json" numericUsers rfl (by with_unfolding_all rfl)).1⟩

/-- C4: a parsed object without a `users` key is treated as an empty
collection and still yields a summary (count 0, total 0), not an error; a
present non-list `users` fails the whole file with the fixed reason string
and yields a `ProcessingError` instead of a `FileSummary`. -/
theorem users_missing_empty_nonlist_fails (kvs : List (String × JValue)) (p : String) :
    (List.lookup "users" kvs = none → extract_user_data kvs p = .ok ⟨p, 0, 0⟩)
    ∧ (∀ v, List.lookup "users" kvs = some v → (∀ xs, v ≠ .arr xs) →
        extract_user_data kvs p = .error ⟨p, "'users' field must be a list"⟩)
    ∧ ∀ fs : FS, fs p = .parsed (.obj kvs) →
        (List.lookup "users" kvs = none → processItem fs (.str p) = .inl ⟨p, 0, 0⟩)
        ∧ ∀ v, List.lookup "users" kvs = some v → (∀ xs, v ≠ .arr xs) →
            processItem fs (.str p) = .inr ⟨p, "'users' field must be a list"⟩ := by
  refine ⟨fun h => extract_users_missing kvs p h,
          fun v h hne => extract_users_nonlist kvs p v h hne,
          fun fs hfs => ⟨fun h => ?_, fun v h hne => ?_⟩⟩
  · rw [processItem_parsed fs p kvs hfs, extract_users_missing kvs p h]
  · rw [processItem_parsed fs p kvs hfs, extract_users_nonlist kvs p v h hne]

/-- Witness for C4 on two concrete files. -/
theorem users_missing_empty_nonlist_fails_witness :
    extract_user_data [] "empty.json" = .ok ⟨"empty.json", 0, 0⟩
    ∧ extract_user_data [("users", JValue.num 1)] "badusers.json"
        = .error ⟨"badusers.json", "'users' field must be a list"⟩
    ∧ processItem fsEmptyObj (.str "empty.json") = .inl ⟨"empty.json", 0, 0⟩
    ∧ processItem fsEmptyObj (.str "badusers.json")
        = .inr ⟨"badusers.json", "'users' field must be a list"⟩ :=
  ⟨(users_missing_empty_nonlist_fails [] "empty.json").1 rfl,
   (users_missing_empty_nonlist_fails [("users", JValue.num 1)] "badusers.json").2.1
     (.num 1) rfl (fun xs h => nomatch h),
   ((users_missing_empty_nonlist_fails [] "empty.json").2.2 fsEmptyObj
      (by with_unfolding_all rfl)).1 rfl,
   ((users_missing_empty_nonlist_fails [("users", JValue.num 1)] "badusers.json").2.2
      fsEmptyObj (by with_unfolding_all rfl)).2 (.num 1) rfl (fun xs h => nomatch h)⟩



/-! ### Helper lemmas and claims: the email validator -/

/-- A successful first-split decomposes the list at the first occurrence
of the character (which does not occur before the split point). -/
theorem splitAtFirst_some (c : Char) :
    ∀ (cs a b : List Char), splitAtFirst c cs = some (a, b) →
      cs = a ++ c :: b ∧ c ∉ a := by
  intro cs
  induction cs with
  | nil => intro a b h; simp [splitAtFirst] at h
  | cons x xs ih =>
    intro a b h
    by_cases hx : x = c
    · rw [splitAtFirst, if_pos hx] at h
      injection h with h2
      injection h2 with ha hb
      subst ha
      subst hb
      subst hx
      exact ⟨rfl, by simp⟩
    · rw [splitAtFirst, if_neg hx] at h
      cases hsf : splitAtFirst c xs with
      | none => rw [hsf] at h; simp at h
      | some ab =>
        rw [hsf] at h
        simp only [Option.map_some'] at h
        injection h with h2
        injection h2 with ha hb
        obtain ⟨hxs, hnc⟩ := ih ab.1 ab.2 (by rw [hsf])
        subst hb
        rw [← ha, hxs]
        refine ⟨rfl, ?_⟩
        intro hc
        rcases List.mem_cons.1 hc with h1 | h1
        · exact hx h1.symm
        · exact hnc h1

/-- Splitting at the first occurrence recovers an explicit decomposition
whose front part avoids the character. -/
theorem splitAtFirst_of_append (c : Char) :
    ∀ (a b : List Char), c ∉ a → splitAtFirst c (a ++ c :: b) = some (a, b) := by
  intro a
  induction a with
  | nil => intro b _; simp [splitAtFirst]
  | cons y ys ih =>
    intro b h
    have hy : ¬ y = c := fun e => h (by simp [e])
    have hys : c ∉ ys := fun e => h (List.mem_cons_of_mem y e)
    rw [List.cons_append, splitAtFirst, if_neg hy, ih b hys]
    simp

/-- A successful last-split decomposes the list at the last occurrence of
the character (which does not occur after the split point). -/
theorem splitAtLast_some (c : Char) (cs m t : List Char)
    (h : splitAtLast c cs = some (m, t)) : cs = m ++ c :: t ∧ c ∉ t := by
  unfold splitAtLast at h
  cases hsf : splitAtFirst c cs.reverse with
  | none => rw [hsf] at h; simp at h
  | some ab =>
    rw [hsf] at h
    simp only [Option.map_some'] at h
    injection h with h2
    injection h2 with hm ht
    obtain ⟨hrev, hnc⟩ := splitAtFirst_some c cs.reverse ab.1 ab.2 (by rw [hsf])
    constructor
    · have := congrArg List.reverse hrev
      rw [List.reverse_reverse, List.reverse_append, List.reverse_cons] at this
      rw [this, ← hm, ← ht]
      simp
    · rw [← ht]
      simp only [List.mem_reverse]
      exact hnc

/-- Splitting at the last occurrence recovers an explicit decomposition
whose tail part avoids the character. -/
theorem splitAtLast_of_append (c : Char) (m t : List Char) (h : c ∉ t) :
    splitAtLast c (m ++ c :: t) = some (m, t) := by
  unfold splitAtLast
  have hrev : (m ++ c :: t).reverse = t.reverse ++ c :: m.reverse := by
    rw [List.reverse_append, List.reverse_cons]
    simp
  rw [hrev, splitAtFirst_of_append c t.reverse m.reverse (by simpa using h)]
  simp

/-- The executable matcher decides exactly the language of the email
pattern with `$` read as end of input. -/
theorem reMatchEmailStrict_iff (cs : List Char) :
    reMatchEmailStrict cs = true ↔ emailSpecMatch cs := by
  constructor
  · intro h
    unfold reMatchEmailStrict at h
    cases hsf : splitAtFirst '@' cs with
    | none => rw [hsf] at h; simp at h
    | some lr =>
      rw [hsf] at h
      obtain ⟨l, rest⟩ := lr
      have h2 : (decide (l ≠ []) && l.all isEmailLocalChar &&
          match splitAtLast '.' rest with
          | none => false
          | some (m, t) =>
            decide (m ≠ []) && m.all isEmailDomainChar &&
            decide (2 ≤ t.length) && t.all isAsciiLetter) = true := h
      cases hsl : splitAtLast '.' rest with
      | none => rw [hsl] at h2; simp at h2
      | some mt =>
        rw [hsl] at h2
        obtain ⟨m, t⟩ := mt
        simp only [Bool.and_eq_true, decide_eq_true_eq, List.all_eq_true] at h2
        obtain ⟨⟨hl, hla⟩, ⟨⟨hm, hma⟩, hlen⟩, hta⟩ := h2
        obtain ⟨hcs, _⟩ := splitAtFirst_some '@' cs l rest hsf
        obtain ⟨hrest, _⟩ := splitAtLast_some '.' rest m t hsl
        exact ⟨l, m, t, by rw [hcs, hrest], hl, hla, hm, hma, hlen, hta⟩
  · rintro ⟨l, m, t, hcs, hl, hla, hm, hma, hlen, hta⟩
    have hat : '@' ∉ l := by
      intro hc
      have := hla '@' hc
      simp [isEmailLocalChar, isAsciiLetter] at this
    have hdot : '.' ∉ t := by
      intro hc
      have := hta '.' hc
      simp [isAsciiLetter] at this
    have h1 : splitAtFirst '@' cs = some (l, m ++ '.' :: t) := by
      rw [hcs]
      exact splitAtFirst_of_append '@' l (m ++ '.' :: t) hat
    have h2 : splitAtLast '.' (m ++ '.' :: t) = some (m, t) :=
      splitAtLast_of_append '.' m t hdot
    unfold reMatchEmailStrict
    rw [h1]
    show (decide (l ≠ []) && l.all isEmailLocalChar &&
        match splitAtLast '.' (m ++ '.' :: t) with
        | none => false
        | some (m, t) =>
          decide (m ≠ []) && m.all isEmailDomainChar &&
          decide (2 ≤ t.length) && t.all isAsciiLetter) = true
    rw [h2]
    simp only [Bool.and_eq_true, decide_eq_true_eq, List.all_eq_true]
    exact ⟨⟨hl, hla⟩, ⟨⟨hm, hma⟩, hlen⟩, hta⟩

/-- Python `re.match` semantics for the email pattern: a match is a strict
pattern match, or a strict match followed by one trailing newline (the
Python meaning of `$`). -/
theorem pyReMatchEmail_iff (cs : List Char) :
    pyReMatchEmail cs = true ↔
      (emailSpecMatch cs ∨ ∃ cs2, cs = cs2 ++ ['\n'] ∧ emailSpecMatch cs2) := by
  unfold pyReMatchEmail
  rw [Bool.or_eq_true]
  constructor
  · rintro (h | h)
    · exact .inl ((reMatchEmailStrict_iff cs).1 h)
    · right
      cases hgl : cs.getLast? with
      | none => rw [hgl] at h; simp at h
      | some c =>
        rw [hgl] at h
        simp only [Bool.and_eq_true, decide_eq_true_eq] at h
        obtain ⟨hc, hstrict⟩ := h
        subst hc
        have hdecomp : cs.dropLast ++ ['\n'] = cs :=
          List.dropLast_append_getLast? '\n' hgl
        exact ⟨cs.dropLast, hdecomp.symm, (reMatchEmailStrict_iff _).1 hstrict⟩
  · rintro (h | ⟨cs2, hcs, h⟩)
    · exact .inl ((reMatchEmailStrict_iff cs).2 h)
    · right
      subst hcs
      have hgl : (cs2 ++ ['\n']).getLast? = some '\n' := by simp
      rw [hgl]
      simp only [Bool.and_eq_true, decide_eq_true_eq, List.dropLast_concat]
      exact ⟨True.intro, (reMatchEmailStrict_iff cs2).2 h⟩

/-- C5 (amended): `validate_email` returns true iff its input is a string
matching the pattern `[A-Za-z0-9._%+-]+@[A-Za-z0-9.-]+\\.[A-Za-z]{2,}`,
possibly followed by one trailing newline (Python `re` reads `$` as
end-of-string or just before a final newline); it returns false for every
non-string, the empty string, and every other string. -/
theorem validate_email_iff (v : PyInput) :
    validate_email v = true ↔
      ∃ cs : List Char, v = .str cs ∧
        (emailSpecMatch cs ∨ ∃ cs2, cs = cs2 ++ ['\n'] ∧ emailSpecMatch cs2) := by
  cases v with
  | nonStr =>
    constructor
    · intro h; exact absurd h (by decide)
    · rintro ⟨cs, heq, _⟩; exact absurd heq (by intro h2; nomatch h2)
  | str cs =>
    by_cases hc : cs = []
    · subst hc
      constructor
      · intro h; exact absurd h (by decide)
      · rintro ⟨cs2, heq, hm | ⟨cs3, hsplit, hm2⟩⟩
        · injection heq with h2
          subst h2
          obtain ⟨l, m, t, hd, hl, _⟩ := hm
          have hlen := congrArg List.length hd
          simp at hlen
          exact absurd hlen (by omega)
        · injection heq with h2
          subst h2
          simp at hsplit
    · have hve : validate_email (.str cs) = pyReMatchEmail cs := by
        simp [validate_email, hc]
      rw [hve, pyReMatchEmail_iff]
      constructor
      · intro h; exact ⟨cs, rfl, h⟩
      · rintro ⟨cs2, heq, h⟩
        injection heq with h2
        subst h2
        exact h

/-- C5 counterexample: the string `a@b.co` followed by a newline is
accepted by `validate_email` but does not match the spec's anchored
pattern, so the claimed equivalence with the strict pattern fails. -/
theorem validate_email_pattern_counterexample :
    validate_email (.str ['a', '@', 'b', '.', 'c', 'o', '\n']) = true
    ∧ ¬ emailSpecMatch ['a', '@', 'b', '.', 'c', 'o', '\n'] := by
  constructor
  · decide
  · intro h
    have h2 := (reMatchEmailStrict_iff _).2 h
    exact absurd h2 (by decide)


/-! ### Claims: the name validator and the endpoint handler -/

/-- C6 counterexample: the two-character string `"a "` is composed only of
letters and spaces, yet `validate_name` rejects it (its trimmed length is
1), so the claimed acceptance of every valid-character string of length
2–100 fails: the code measures length after trimming. -/
theorem validate_name_length_counterexample :
    (['a', ' '] : List Char).length = 2
    ∧ (∀ c ∈ (['a', ' '] : List Char),
        (isAsciiLetter c || c = ' ' || c = '-' || c = '\'') = true)
    ∧ validate_name (.str ['a', ' ']) = (false, "Name must be at least 2 characters long") := by
  refine ⟨rfl, by decide, by decide⟩

/-- C6 (amended): with lengths measured on the trimmed string,
`validate_name` accepts exactly the names whose trimmed form has length
2–100 and only letters, whitespace, hyphen or apostrophe; trimmed length 1
or 101 is rejected with the corresponding length message; and a trimmed
in-range string containing a character outside the class is rejected with
the invalid-character message — each failure reporting the first violated
rule's message. -/
theorem validate_name_trimmed_rules (cs : List Char) :
    (2 ≤ (pyStrip cs).length → (pyStrip cs).length ≤ 100 →
        (pyStrip cs).all isNameChar = true → validate_name (.str cs) = (true, ""))
    ∧ ((pyStrip cs).length = 1 →
        validate_name (.str cs) = (false, "Name must be at least 2 characters long"))
    ∧ ((pyStrip cs).length = 101 →
        validate_name (.str cs) = (false, "Name must not exceed 100 characters"))
    ∧ (2 ≤ (pyStrip cs).length → (pyStrip cs).length ≤ 100 →
        (pyStrip cs).all isNameChar = false →
        validate_name (.str cs) = (false, "Name contains invalid characters")) := by
  by_cases hc : cs = []
  · subst hc
    refine ⟨fun h1 _ _ => absurd h1 (by decide), fun h => absurd h (by decide),
            fun h => absurd h (by decide), fun h1 _ _ => absurd h1 (by decide)⟩
  · have hv : validate_name (.str cs)
        = (if (pyStrip cs).length < 2 then
             ((false : Bool), "Name must be at least 2 characters long")
           else if (pyStrip cs).length > 100 then
             (false, "Name must not exceed 100 characters")
           else if (pyStrip cs).all isNameChar then (true, "")
           else (false, "Name contains invalid characters")) := by
      simp only [validate_name]
      rw [if_neg hc]
    refine ⟨fun h1 h2 h3 => ?_, fun h => ?_, fun h => ?_, fun h1 h2 h3 => ?_⟩
    · rw [hv, if_neg (by omega), if_neg (by omega), if_pos h3]
    · rw [hv, if_pos (by omega)]
    · rw [hv, if_neg (by omega), if_pos (by omega)]
    · rw [hv, if_neg (by omega), if_neg (by omega), if_neg (by simp [h3])]

/-- Witness for C6 at four concrete names. -/
theorem validate_name_trimmed_rules_witness :
    validate_name (.str ['J', 'o']) = (true, "")
    ∧ validate_name (.str ['a']) = (false, "Name must be at least 2 characters long")
    ∧ validate_name (.str (List.replicate 101 'a'))
        = (false, "Name must not exceed 100 characters")
    ∧ validate_name (.str ['a', '1', 'b']) = (false, "Name contains invalid characters") :=
  ⟨(validate_name_trimmed_rules ['J', 'o']).1 (by decide) (by decide) (by decide),
   (validate_name_trimmed_rules ['a']).2.1 (by decide),
   (validate_name_trimmed_rules (List.replicate 101 'a')).2.2.1 (by decide),
   (validate_name_trimmed_rules ['a', '1', 'b']).2.2.2 (by decide) (by decide) (by decide)⟩

/-- C7: when an unexpected exception occurs during `create_user`, the
handler returns status 500 with the fixed generic body, whatever the
internal exception text `m` was — the response is a constant independent
of `m`, so internal error text never reaches the client. -/
theorem internal_error_generic (m : String) :
    create_user (.fault m) = (500, internalErrorBody)
    ∧ internalErrorBody
        = .obj [("error", .str "Internal server error"),
                ("message", .str "An unexpected error occurred processing your request")] :=
  ⟨rfl, rfl⟩
